import Mathlib

/-!
Verification development for `input_generator/raw_dataset.py` of mlcg-tk.

The Python module is shallowly embedded below:

* numpy arrays are modelled by `NArray` (a shape together with opaque data);
  frame stacks whose per-frame payload is irrelevant to the verified
  properties are modelled as `List Int` (one opaque entry per frame);
* the pandas topology dataframe rows are modelled by `DFRow`
  (chainID, resSeq, name, embedding type code);
* the Python dict used as embedding dictionary is modelled as an
  association list `List (String × Nat)` (insertion appends at the end,
  lookup takes the first matching key, `max` ranges over the values);
* stateful methods of `SampleCollection` become explicit state passing on
  `SCState`; functions from the sibling module `utils.py` (outside the
  verified source file) are taken as parameters of the embedding;
* fallible paths return the unchanged state together with the list of
  emitted messages instead of printing / warning; `save_cg_output` returns
  the list of artifacts it writes instead of writing files.  Its optional
  explicit `cg_coords` / `cg_forces` arguments are not modelled: all
  verified properties concern calls that leave them at their default
  `None`.
-/

/-- Model of a numpy array: a shape and opaque integer payload. -/
structure NArray where
  shape : List Nat
  data : List Int
deriving DecidableEq, Repr

/-- One row of the CG topology dataframe (`cg_df` in `apply_cg_mapping`):
chain identifier, residue sequence number, atom name and embedding code
(the `type` column). -/
structure DFRow where
  chainID : Nat
  resSeq : Nat
  name : String
  type : Nat
deriving DecidableEq, Repr

/-- `df.chainID.unique()`: the distinct chain identifiers occurring in the
dataframe. -/
def chainIDList (rows : List DFRow) : List Nat :=
  (rows.map (fun r => r.chainID)).dedup

/-- Number of dataframe rows belonging to chain `c`
(one entry of `df.value_counts("chainID")`). -/
def chainCount (rows : List DFRow) (c : Nat) : Nat :=
  (rows.filter (fun r => r.chainID == c)).length

/-- `df.value_counts("chainID")`: the per-chain row counts, sorted in
descending order (pandas sorts value counts descending; the order among
tied counts does not affect any prefix sum). -/
def countsDesc (rows : List DFRow) : List Nat :=
  List.insertionSort (fun a b => a ≥ b) ((chainIDList rows).map (chainCount rows))

/-- `df.value_counts("chainID")[0 : c].sum()`: cumulative offset added to
the residue sequence numbers of chain `c` by `apply_cg_mapping`. -/
def chainOffset (rows : List DFRow) (c : Nat) : Nat :=
  ((countsDesc rows).take c).sum

/-- The residue renumbering performed by `apply_cg_mapping` (lines 202-205):
`cg_df.resSeq = [cg_df.resSeq[i] + cg_df.value_counts("chainID")[0:cg_df.chainID[i]].sum() ...]`. -/
def renumberResSeq (rows : List DFRow) : List DFRow :=
  rows.map (fun r => { r with resSeq := r.resSeq + chainOffset rows r.chainID })

/-- No two particles of different chains share a residue sequence number. -/
def noCrossChainCollision (rows : List DFRow) : Prop :=
  ∀ r ∈ rows, ∀ s ∈ rows, r.chainID ≠ s.chainID → r.resSeq ≠ s.resSeq

instance (rows : List DFRow) : Decidable (noCrossChainCollision rows) := by
  unfold noCrossChainCollision
  infer_instance

/-! ### Batching helpers (`get_strides`, `CGDataBatch.__init__`) -/

/-- `xs[::s]` for a positive step `s`: keep the entries whose index is a
multiple of `s`. -/
def everyStride {α : Type} (l : List α) (s : Nat) : List α :=
  (l.enum.filter (fun p => p.1 % s == 0)).map (fun p => p.2)

/-- `np.cumsum`. -/
def cumsum : List Nat → List Nat
  | [] => []
  | x :: xs => x :: (cumsum xs).map (fun y => x + y)

/-- `get_strides(n_structure, batch_size)`: the `[start, end)` windows used
to batch `n` frames with batch size `b`, as built by the source (a zero,
`n / b` full batches, a trailing remainder batch when `n % b ≠ 0`,
cumulative sums, consecutive pairs). -/
def getStrides (n b : Nat) : List (Nat × Nat) :=
  let q := n / b
  let r := n % b
  let batches : List Nat :=
    if r = 0 then 0 :: List.replicate q b else 0 :: (List.replicate q b ++ [r])
  let cs := cumsum batches
  cs.zip cs.tail

/-- Consecutive pairs of a list (`l.zip l.tail` in closed recursive form;
used to reason about the windows and the synthesized chain bonds). -/
def consecPairs {α : Type} : List α → List (α × α)
  | [] => []
  | [_] => []
  | a :: b :: rest => (a, b) :: consecPairs (b :: rest)

/-- State of a constructed `CGDataBatch`. -/
structure CGDataBatch where
  cg_coords : List Int
  cg_forces : List Int
  weights : Option (List ℚ)
  n_structure : Nat
  batch_size : Nat
  stride : Nat
  strides : List (Nat × Nat)
  n_elem : Nat
deriving DecidableEq, Repr

/-- `CGDataBatch.__init__`: stride the frames, stride the optional weights
and renormalize them by their sum when `stride ≠ 1`, cap the batch size at
the number of retained frames, and window the frames with `get_strides`.
Coordinate and force frames are opaque (`List Int`), weights are exact
rationals. -/
def initBatch (cg_coords cg_forces : List Int) (weights : Option (List ℚ))
    (batch_size stride : Nat) : CGDataBatch :=
  let c := everyStride cg_coords stride
  let f := everyStride cg_forces stride
  let w : Option (List ℚ) :=
    match weights with
    | none => none
    | some ws =>
      let ws2 := everyStride ws stride
      some (if stride ≠ 1 then ws2.map (fun x => x / ws2.sum) else ws2)
  let n := c.length
  let b := if n < batch_size then n else batch_size
  { cg_coords := c, cg_forces := f, weights := w, n_structure := n,
    batch_size := b, stride := stride,
    strides := getStrides n b, n_elem := (getStrides n b).length }

/-! ### CG topology and the bond repair of `get_prior_nls` -/

/-- An atom of the sliced CG `md.Topology` (its global index and name). -/
structure CGAtom where
  idx : Nat
  name : String
deriving DecidableEq, Repr

/-- The sliced CG topology: its chains (each an ordered atom list) and its
bond list (pairs of global atom indices). -/
structure CGTop where
  chains : List (List CGAtom)
  bonds : List (Nat × Nat)
deriving DecidableEq, Repr

/-- `list(cg_top.atoms)`: all atoms, chain by chain. -/
def topAtoms (t : CGTop) : List CGAtom :=
  t.chains.flatten

/-- Bonds between consecutive atoms of one chain, as added by the repair
loop `for i, _ in enumerate(ch_atoms[:-1]): cg_top.add_bond(ch_atoms[i], ch_atoms[i+1])`. -/
def consecBonds (ch : List CGAtom) : List (Nat × Nat) :=
  (ch.zip ch.tail).map (fun p => (p.1.idx, p.2.idx))

/-- `set([atom.name for atom in atoms]) == set(["CA"])`: the topology is
nonempty and every atom is named `CA`. -/
def allCA (t : CGTop) : Bool :=
  !(topAtoms t).isEmpty && (topAtoms t).all (fun a => a.name == "CA")

/-- The bond list after the degenerate-topology repair step of
`get_prior_nls` (lines 469-478): when all atoms are named `CA`, sequential
bonds are added between consecutive atoms of each chain. -/
def repairBonds (t : CGTop) : List (Nat × Nat) :=
  if allCA t then t.bonds ++ t.chains.flatMap consecBonds else t.bonds

/-- Global indices of a chain's atoms. -/
def chainIdxs (ch : List CGAtom) : List Nat :=
  ch.map (fun a => a.idx)

/-- The bonds of a bond list whose two endpoints both belong to chain `ch`. -/
def bondsWithin (ch : List CGAtom) (bonds : List (Nat × Nat)) : List (Nat × Nat) :=
  bonds.filter (fun p => (chainIdxs ch).contains p.1 && (chainIdxs ch).contains p.2)

/-- Two chains have disjoint atom indices (true of any real topology). -/
def chainDisj (c1 c2 : List CGAtom) : Prop :=
  ∀ a ∈ c1, ∀ b ∈ c2, a.idx ≠ b.idx

instance (c1 c2 : List CGAtom) : Decidable (chainDisj c1 c2) := by
  unfold chainDisj
  infer_instance

/-! ### The embedding dictionary and `add_terminal_embeddings` -/

/-- `d.values()`. -/
def dictValues (d : List (String × Nat)) : List Nat :=
  d.map (fun p => p.2)

/-- `k in d`. -/
def dictContains (d : List (String × Nat)) (k : String) : Bool :=
  d.any (fun p => p.1 == k)

/-- `d[k]` (defaulting to `0` when absent; all verified uses look up
present keys). -/
def dictGet (d : List (String × Nat)) (k : String) : Nat :=
  (d.find? (fun p => p.1 == k)).elim 0 (fun p => p.2)

/-- `max(d.values())` (defaulting to `0` on the empty dict, on which the
Python `max` would raise; theorems assume a nonempty dict). -/
def dictMax (d : List (String × Nat)) : Nat :=
  (dictValues d).foldl Nat.max 0

/-- `if k not in d: d[k] = max(d.values()) + 1`. -/
def ensureTermKey (d : List (String × Nat)) (k : String) : List (String × Nat) :=
  if dictContains d k then d else d ++ [(k, dictMax d + 1)]

/-- Minimum of a nonempty list of naturals (`series.min()`), `0` on `[]`. -/
def listMinD : List Nat → Nat
  | [] => 0
  | x :: xs => xs.foldl Nat.min x

/-- Maximum of a nonempty list of naturals (`series.max()`), `0` on `[]`. -/
def listMaxD : List Nat → Nat
  | [] => 0
  | x :: xs => xs.foldl Nat.max x

/-- The residue sequence numbers of chain `c` (`df_cg[chain_filter]["resSeq"]`). -/
def chainResSeqs (df : List DFRow) (c : Nat) : List Nat :=
  (df.filter (fun r => r.chainID == c)).map (fun r => r.resSeq)

/-- `df_cg.loc[chain_filter]` over the enumerated dataframe: the indexed
rows of chain `c`. -/
def chainSel (df : List DFRow) (c : Nat) : List (Nat × DFRow) :=
  df.enum.filter (fun p => p.2.chainID == c)

/-- The chain's extreme residue number: `df_cg[chain_filter]["resSeq"].min()`
for the N-terminus (`useMin = true`), `.max()` for the C-terminus. -/
def chainExt (df : List DFRow) (c : Nat) (useMin : Bool) : Nat :=
  if useMin then listMinD ((chainSel df c).map (fun q => q.2.resSeq))
  else listMaxD ((chainSel df c).map (fun q => q.2.resSeq))

/-- The dataframe indices collected by the per-chain terminal-atom loop of
`add_terminal_embeddings`: for each chain, the rows whose `resSeq` equals
the chain's minimum (`useMin = true`, N-terminus) or maximum
(`useMin = false`, C-terminus) residue number and whose `name` equals the
requested terminal atom name. -/
def termAtomIdxs (df : List DFRow) (aname : String) (useMin : Bool) : List Nat :=
  (chainIDList df).flatMap (fun c =>
    ((chainSel df c).filter (fun p =>
        p.2.resSeq == chainExt df c useMin && p.2.name == aname)).map (fun p => p.1))

/-- `self.cg_dataframe.at[idx, "type"] = code` for one index. -/
def setType : List DFRow → Nat → Nat → List DFRow
  | [], _, _ => []
  | r :: rs, 0, code => { r with type := code } :: rs
  | r :: rs, i + 1, code => r :: setType rs i code

/-- The update loop `for idx in term_atoms: self.cg_dataframe.at[idx, "type"] = code`. -/
def applyType (df : List DFRow) (idxs : List Nat) (code : Nat) : List DFRow :=
  idxs.foldl (fun acc i => setType acc i code) df

/-- `add_terminal_embeddings(N_term, C_term)` acting on the CG dataframe
and the embedding dictionary: for each requested terminus, lazily allocate
its code as `max(values) + 1` when absent, then overwrite the `type` of the
matching terminal rows, N-terminus first, then C-terminus (the C pass reads
the dataframe already updated by the N pass). -/
def addTerminalEmbeddings (df : List DFRow) (d : List (String × Nat))
    (nOpt cOpt : Option String) : List DFRow × List (String × Nat) :=
  let d1 := match nOpt with
    | none => d
    | some _ => ensureTermKey d "N_term"
  let df1 := match nOpt with
    | none => df
    | some nm => applyType df (termAtomIdxs df nm true) (dictGet d1 "N_term")
  let d2 := match cOpt with
    | none => d1
    | some _ => ensureTermKey d1 "C_term"
  let df2 := match cOpt with
    | none => df1
    | some nm => applyType df1 (termAtomIdxs df1 nm false) (dictGet d2 "C_term")
  (df2, d2)

/-- Row `r` of dataframe `df` is an N-terminal atom for terminal name `nm`:
it carries the name and sits at its chain's minimum residue number. -/
def isNTermAtom (df : List DFRow) (nm : String) (r : DFRow) : Prop :=
  r.name = nm ∧ r.resSeq = listMinD (chainResSeqs df r.chainID)

/-- Row `r` of dataframe `df` is a C-terminal atom for terminal name `nm`:
it carries the name and sits at its chain's maximum residue number. -/
def isCTermAtom (df : List DFRow) (nm : String) (r : DFRow) : Prop :=
  r.name = nm ∧ r.resSeq = listMaxD (chainResSeqs df r.chainID)

instance (df : List DFRow) (nm : String) (r : DFRow) :
    Decidable (isNTermAtom df nm r) := by
  unfold isNTermAtom
  infer_instance

instance (df : List DFRow) (nm : String) (r : DFRow) :
    Decidable (isCTermAtom df nm r) := by
  unfold isCTermAtom
  infer_instance

/-- The fields of a row other than the embedding code. -/
def stripType (r : DFRow) : Nat × Nat × String :=
  (r.chainID, r.resSeq, r.name)

/-- The embedding dictionary after the N-terminal pass of
`add_terminal_embeddings`. -/
def dictAfterN (d : List (String × Nat)) (nOpt : Option String) : List (String × Nat) :=
  match nOpt with
  | none => d
  | some _ => ensureTermKey d "N_term"

/-- The embedding dictionary after both terminal passes. -/
def dictAfterC (d : List (String × Nat)) (nOpt cOpt : Option String) : List (String × Nat) :=
  match cOpt with
  | none => dictAfterN d nOpt
  | some _ => ensureTermKey (dictAfterN d nOpt) "C_term"

/-- The N-terminal embedding code used by `add_terminal_embeddings`
(the existing entry, or the lazily allocated `max(values) + 1`). -/
def nTermCodeD (d : List (String × Nat)) : Nat :=
  dictGet (ensureTermKey d "N_term") "N_term"

/-- The C-terminal embedding code used by `add_terminal_embeddings`,
allocated after the N pass has possibly extended the dictionary. -/
def cTermCodeD (d : List (String × Nat)) (nOpt : Option String) : Nat :=
  dictGet (ensureTermKey (dictAfterN d nOpt) "C_term") "C_term"

/-- The per-row effect of `add_terminal_embeddings`: overwrite the type
with the terminal code exactly on rows matching the requested terminus at
their chain's extreme residue number (C-terminus applied after
N-terminus). -/
def termUpdatedRow (df : List DFRow) (d : List (String × Nat))
    (nOpt cOpt : Option String) (r : DFRow) : DFRow :=
  let rN : DFRow := match nOpt with
    | none => r
    | some nm => if isNTermAtom df nm r then { r with type := nTermCodeD d } else r
  match cOpt with
  | none => rN
  | some nm => if isCTermAtom df nm r then { rN with type := cTermCodeD d nOpt } else rN

/-! ### `SampleCollection` state, mapping, projection and saving -/

/-- The attributes of a `SampleCollection` touched by `apply_cg_mapping`,
`process_coords_forces` and `save_cg_output`; `none` models an attribute
that was never set (`hasattr` fails). -/
structure SCState where
  cg_atom_indices : Option (List Nat)
  cg_dataframe : List DFRow
  cg_map : Option NArray
  cg_coords : Option NArray
  cg_forces : Option NArray
  force_map : Option NArray
  N_term : Option String
  C_term : Option String
deriving DecidableEq, Repr

/-- `apply_cg_mapping`: install the mapped topology (with renumbered
residue sequence numbers), the atom indices and the selection matrix, and
reset the terminal markers.  The mapped dataframe, index list and selection
matrix computed by the helper `map_cg_topology` are taken as inputs.  Note
that the projected artifacts `cg_coords`, `cg_forces` and `force_map` are
left untouched. -/
def applyCgMapping (s : SCState) (mappedDf : List DFRow) (idxs : List Nat)
    (cgMap : NArray) : SCState :=
  { s with
    cg_atom_indices := some idxs,
    cg_dataframe := renumberResSeq mappedDf,
    cg_map := some cgMap,
    N_term := none,
    C_term := none }

/-- `process_coords_forces`: on a shape mismatch, warn and return nothing,
leaving the state unchanged; otherwise run the projection
(`slice_coord_forces`, a collaborator from `utils.py`, passed in as
`sliceCF`), store its results and return the CG coordinates and forces. -/
def processCoordsForces
    (sliceCF : NArray → NArray → Option NArray → NArray × NArray × NArray)
    (s : SCState) (coords forces : NArray) :
    Option (NArray × NArray) × SCState × List String :=
  if coords.shape ≠ forces.shape then
    (none, s,
      ["Cannot process coordinates and forces: mismatch between array shapes."])
  else
    let res := sliceCF coords forces s.cg_map
    (some (res.1, res.2.1),
      { s with cg_coords := some res.1, cg_forces := some res.2.1,
               force_map := some res.2.2 },
      [])

/-- One file written by `save_cg_output`. -/
inductive SavedArtifact where
  | structureFile (df : List DFRow) (idxs : List Nat)
  | embeds (types : List Nat)
  | coords (a : NArray)
  | forces (a : NArray)
  | coordMap (a : NArray)
  | forceMapFile (a : NArray)
deriving DecidableEq, Repr

/-- `save_cg_output(save_dir, save_coord_force, save_cg_maps)` with the
explicit array arguments left at their default `None`: abort with a message
when the mapping was never applied; otherwise always save the CG structure
and embeddings, then save each optional artifact that exists and report
each one that is missing.  Returns the written artifacts and the emitted
messages. -/
def saveCgOutput (s : SCState) (save_coord_force save_cg_maps : Bool) :
    List SavedArtifact × List String :=
  match s.cg_atom_indices with
  | none => ([], ["CG mapping must be applied before outputs can be saved."])
  | some idxs =>
    let base : List SavedArtifact :=
      [SavedArtifact.structureFile s.cg_dataframe idxs,
       SavedArtifact.embeds (s.cg_dataframe.map (fun r => r.type))]
    let coordPart : List SavedArtifact × List String :=
      if save_coord_force then
        match s.cg_coords with
        | none => ([], ["No coordinates found; only CG structure, embeddings and loaded forces will be saved."])
        | some c => ([SavedArtifact.coords c], [])
      else ([], [])
    let forcePart : List SavedArtifact × List String :=
      if save_coord_force then
        match s.cg_forces with
        | none => ([], ["No forces found;  only CG structure, embeddings, and loaded coordinates will be saved."])
        | some f => ([SavedArtifact.forces f], [])
      else ([], [])
    let mapPart : List SavedArtifact × List String :=
      if save_cg_maps then
        match s.cg_map with
        | none => ([], ["No cg coordinate map found. Skipping save."])
        | some m => ([SavedArtifact.coordMap m], [])
      else ([], [])
    let fmapPart : List SavedArtifact × List String :=
      if save_cg_maps then
        match s.force_map with
        | none => ([], ["No cg force map found. Skipping save."])
        | some m => ([SavedArtifact.forceMapFile m], [])
      else ([], [])
    (base ++ coordPart.1 ++ forcePart.1 ++ mapPart.1 ++ fmapPart.1,
     coordPart.2 ++ forcePart.2 ++ mapPart.2 ++ fmapPart.2)

/-! ### Concrete inputs used by counterexamples and witnesses -/

/-- Three chains of sizes 1, 5 and 1, each numbered from 1: after
renumbering, chain 1 and chain 2 both contain residue number 7. -/
def c1rows : List DFRow :=
  [⟨0, 1, "CA", 1⟩,
   ⟨1, 1, "CA", 1⟩, ⟨1, 2, "CA", 1⟩, ⟨1, 3, "CA", 1⟩, ⟨1, 4, "CA", 1⟩, ⟨1, 5, "CA", 1⟩,
   ⟨2, 1, "CA", 1⟩]

/-- A concrete homodimer: two chains of two residues each, numbered 1..2. -/
def c1homodimer : List DFRow :=
  [⟨0, 1, "N", 1⟩, ⟨0, 2, "CA", 1⟩, ⟨1, 1, "N", 1⟩, ⟨1, 2, "CA", 1⟩]

/-- One chain of five single-bead residues all named `CB`, without bonds. -/
def c2topCB : CGTop :=
  { chains := [[⟨0, "CB"⟩, ⟨1, "CB"⟩, ⟨2, "CB"⟩, ⟨3, "CB"⟩, ⟨4, "CB"⟩]],
    bonds := [] }

/-- Two chains of five single-bead residues all named `CA`, without bonds. -/
def c2topCA : CGTop :=
  { chains := [[⟨0, "CA"⟩, ⟨1, "CA"⟩, ⟨2, "CA"⟩, ⟨3, "CA"⟩, ⟨4, "CA"⟩],
               [⟨5, "CA"⟩, ⟨6, "CA"⟩, ⟨7, "CA"⟩, ⟨8, "CA"⟩, ⟨9, "CA"⟩]],
    bonds := [] }

/-- A two-chain homodimer CG dataframe: residues 1..10 on chain 0 and
11..20 on chain 1 (as left by the renumbering), one `N` and one `CA` bead
on each chain's first residue, a `C` bead on each chain's last residue. -/
def c3homodimer : List DFRow :=
  [⟨0, 1, "N", 2⟩, ⟨0, 1, "CA", 1⟩, ⟨0, 2, "CA", 1⟩, ⟨0, 10, "C", 3⟩,
   ⟨1, 11, "N", 2⟩, ⟨1, 11, "CA", 1⟩, ⟨1, 12, "CA", 1⟩, ⟨1, 20, "C", 3⟩]

/-- An embedding dictionary without terminal codes. -/
def c3dict : List (String × Nat) :=
  [("CA", 1), ("N", 2), ("C", 3)]

/-- A demonstration projection collaborator whose output records the
coordinate map it was given, so that the provenance of stored projected
data is visible in the state. -/
def sliceDemo (coords forces : NArray) (cgMap : Option NArray) :
    NArray × NArray × NArray :=
  (cgMap.elim coords (fun m => m), forces, cgMap.elim coords (fun m => m))

/-- First mapping of the C4 scenario. -/
def c4mapA : NArray := ⟨[2, 4], [1, 0, 0, 0, 0, 0, 1, 0]⟩

/-- Second, different mapping of the C4 scenario. -/
def c4mapB : NArray := ⟨[2, 4], [0, 1, 0, 0, 0, 0, 0, 1]⟩

/-- Dataframe installed by the first mapping of the C4 scenario. -/
def c4dfA : List DFRow := [⟨0, 1, "CA", 1⟩, ⟨0, 2, "CA", 1⟩]

/-- Dataframe installed by the second mapping of the C4 scenario. -/
def c4dfB : List DFRow := [⟨0, 1, "CB", 4⟩, ⟨0, 2, "CB", 4⟩]

/-- A fresh, never-mapped `SampleCollection`. -/
def blankState : SCState :=
  ⟨none, [], none, none, none, none, none, none⟩

/-- C4 scenario: map with `c4mapA`, project (storing data derived from
`c4mapA`), then re-map with `c4mapB`. -/
def c4s3 : SCState :=
  let s1 := applyCgMapping blankState c4dfA [0, 6] c4mapA
  let s2 := (processCoordsForces sliceDemo s1 ⟨[3, 4, 3], []⟩ ⟨[3, 4, 3], []⟩).2.1
  applyCgMapping s2 c4dfB [1, 7] c4mapB

/-- A partially populated `SampleCollection`: mapping applied, coordinates
projected and a coordinate map present, but no forces and no force map. -/
def c9state : SCState :=
  ⟨some [0, 1], [⟨0, 1, "CA", 1⟩], some ⟨[1, 2], [1, 0]⟩,
   some ⟨[1, 1, 3], [5, 6, 7]⟩, none, none, none, none⟩

/-! ## Theorems -/

/-! ### Claim C1: residue renumbering across chains -/

/-- A `Nodup` list of naturals containing `0` and `1` whose members are all
`0` or `1` is `[0, 1]` or `[1, 0]`. -/
theorem nodup_zero_one (l : List Nat) (hnd : l.Nodup)
    (h0 : 0 ∈ l) (h1 : 1 ∈ l) (hx : ∀ x ∈ l, x = 0 ∨ x = 1) :
    l = [0, 1] ∨ l = [1, 0] := by
  match l, hnd, h0, h1, hx with
  | [], _, h0, _, _ => cases h0
  | [a], _, h0, h1, _ =>
    simp only [List.mem_singleton] at h0 h1
    omega
  | [a, b], hnd, h0, h1, hx =>
    have hab : a ≠ b := by
      simp only [List.nodup_cons, List.mem_singleton] at hnd
      exact hnd.1
    have ha := hx a (by simp)
    have hb := hx b (by simp)
    simp only [List.mem_cons, List.mem_singleton, List.not_mem_nil, or_false] at h0 h1
    rcases ha with ha | ha <;> rcases hb with hb | hb <;> subst ha <;> subst hb <;> simp_all
  | a :: b :: c :: rest, hnd, _, _, hx =>
    have ha := hx a (by simp)
    have hb := hx b (by simp)
    have hc := hx c (by simp)
    simp only [List.nodup_cons, List.mem_cons] at hnd
    exfalso
    rcases ha with ha | ha <;> rcases hb with hb | hb <;> rcases hc with hc | hc <;>
      subst ha <;> subst hb <;> subst hc <;> simp_all

/-- Sorting a two-element list in descending order. -/
theorem insertionSort_pair (a b : Nat) :
    List.insertionSort (fun x y => x ≥ y) [a, b] = [max a b, min a b] := by
  simp only [List.insertionSort, List.orderedInsert]
  split
  · simp only [ge_iff_le] at *
    rw [Nat.max_eq_left (by omega), Nat.min_eq_right (by omega)]
  · simp only [ge_iff_le, not_le] at *
    rw [Nat.max_eq_right (by omega), Nat.min_eq_left (by omega)]

/-- For a two-chain dataframe the chain identifier list is `[0, 1]` or
`[1, 0]`. -/
theorem chainIDList_two (rows : List DFRow)
    (hmem : ∀ r ∈ rows, r.chainID = 0 ∨ r.chainID = 1)
    (h0 : ∃ r ∈ rows, r.chainID = 0)
    (h1 : ∃ r ∈ rows, r.chainID = 1) :
    chainIDList rows = [0, 1] ∨ chainIDList rows = [1, 0] := by
  apply nodup_zero_one
  · exact List.nodup_dedup _
  · rcases h0 with ⟨r, hr, hc⟩
    exact List.mem_dedup.mpr (List.mem_map.mpr ⟨r, hr, hc⟩)
  · rcases h1 with ⟨r, hr, hc⟩
    exact List.mem_dedup.mpr (List.mem_map.mpr ⟨r, hr, hc⟩)
  · intro x hxl
    rcases List.mem_map.mp (List.mem_dedup.mp hxl) with ⟨r, hr, hrx⟩
    rcases hmem r hr with h | h <;> simp [← hrx, h]

/-- Offsets produced by the renumbering in the two-chain case: chain `0`
keeps its numbers, chain `1` is shifted by the larger chain size. -/
theorem chainOffset_two (rows : List DFRow)
    (hmem : ∀ r ∈ rows, r.chainID = 0 ∨ r.chainID = 1)
    (h0 : ∃ r ∈ rows, r.chainID = 0)
    (h1 : ∃ r ∈ rows, r.chainID = 1) :
    chainOffset rows 0 = 0 ∧
    chainOffset rows 1 = max (chainCount rows 0) (chainCount rows 1) := by
  have hcd : countsDesc rows
      = [max (chainCount rows 0) (chainCount rows 1),
         min (chainCount rows 0) (chainCount rows 1)] := by
    unfold countsDesc
    rcases chainIDList_two rows hmem h0 h1 with h | h <;> rw [h]
    · simpa using insertionSort_pair (chainCount rows 0) (chainCount rows 1)
    · have := insertionSort_pair (chainCount rows 1) (chainCount rows 0)
      simpa [Nat.max_comm, Nat.min_comm] using this
  constructor
  · simp [chainOffset]
  · simp [chainOffset, hcd]

/-- Claim C1 (amended): for a topology with exactly the two chains `0` and
`1`, in which every particle's residue sequence number lies between `1` and
the particle count of its own chain (as for a homodimer numbered `1..n` per
chain), the renumbering of `apply_cg_mapping` leaves no two particles of
different chains with the same residue sequence number. -/
theorem c1_renumber_two_chains (rows : List DFRow)
    (hmem : ∀ r ∈ rows, r.chainID = 0 ∨ r.chainID = 1)
    (h0 : ∃ r ∈ rows, r.chainID = 0)
    (h1 : ∃ r ∈ rows, r.chainID = 1)
    (hrs : ∀ r ∈ rows, 1 ≤ r.resSeq ∧ r.resSeq ≤ chainCount rows r.chainID) :
    noCrossChainCollision (renumberResSeq rows) := by
  rcases chainOffset_two rows hmem h0 h1 with ⟨hof0, hof1⟩
  intro r hr s hs hne
  rcases List.mem_map.mp hr with ⟨r0, hr0, hr0eq⟩
  rcases List.mem_map.mp hs with ⟨s0, hs0, hs0eq⟩
  have hrchain : r.chainID = r0.chainID := by rw [← hr0eq]
  have hschain : s.chainID = s0.chainID := by rw [← hs0eq]
  have hrres : r.resSeq = r0.resSeq + chainOffset rows r0.chainID := by rw [← hr0eq]
  have hsres : s.resSeq = s0.resSeq + chainOffset rows s0.chainID := by rw [← hs0eq]
  have hrb := hrs r0 hr0
  have hsb := hrs s0 hs0
  rcases hmem r0 hr0 with hc0 | hc0 <;> rcases hmem s0 hs0 with hc1 | hc1
  · exact absurd (hrchain.trans (hc0.trans (hc1.symm.trans hschain.symm))) hne
  · rw [hc0] at hrres hrb
    rw [hc1] at hsres hsb
    rw [hof0] at hrres
    rw [hof1] at hsres
    have : chainCount rows 0 ≤ max (chainCount rows 0) (chainCount rows 1) :=
      Nat.le_max_left _ _
    omega
  · rw [hc0] at hrres hrb
    rw [hc1] at hsres hsb
    rw [hof1] at hrres
    rw [hof0] at hsres
    have : chainCount rows 0 ≤ max (chainCount rows 0) (chainCount rows 1) :=
      Nat.le_max_left _ _
    omega
  · exact absurd (hrchain.trans (hc0.trans (hc1.symm.trans hschain.symm))) hne

/-- Claim C1, counterexample: a topology with multiple (three) chains whose
renumbered residue sequence numbers do collide across chains (chain 1 and
chain 2 both end up containing residue number 7), refuting the claim as
stated. -/
theorem c1_counterexample :
    2 ≤ (chainIDList c1rows).length ∧
    ¬ noCrossChainCollision (renumberResSeq c1rows) := by
  decide

/-- Claim C1, witness for the amended theorem at a concrete homodimer. -/
theorem c1_witness :
    (∀ r ∈ c1homodimer, r.chainID = 0 ∨ r.chainID = 1) ∧
    (∃ r ∈ c1homodimer, r.chainID = 0) ∧
    (∃ r ∈ c1homodimer, r.chainID = 1) ∧
    (∀ r ∈ c1homodimer, 1 ≤ r.resSeq ∧ r.resSeq ≤ chainCount c1homodimer r.chainID) ∧
    noCrossChainCollision (renumberResSeq c1homodimer) :=
  ⟨by decide, by decide, by decide, by decide,
   c1_renumber_two_chains c1homodimer (by decide) (by decide) (by decide) (by decide)⟩

/-! ### Claims C6, C7, C10: batching, windows and weights -/

theorem zip_tail_eq_consecPairs {α : Type} (l : List α) :
    l.zip l.tail = consecPairs l := by
  induction l with
  | nil => rfl
  | cons a tl ih =>
    cases tl with
    | nil => rfl
    | cons b rest =>
      simp only [List.tail_cons, List.zip_cons_cons, consecPairs]
      rw [← ih]
      rfl

theorem cumsum_append (l m : List Nat) :
    cumsum (l ++ m) = cumsum l ++ (cumsum m).map (fun y => l.sum + y) := by
  induction l with
  | nil => simp [cumsum]
  | cons x xs ih =>
    rw [List.cons_append]
    rw [show cumsum (x :: (xs ++ m)) = x :: (cumsum (xs ++ m)).map (fun y => x + y) from rfl]
    rw [ih, List.map_append, List.map_map]
    rw [show cumsum (x :: xs) = x :: (cumsum xs).map (fun y => x + y) from rfl]
    rw [List.cons_append]
    have hf : ((fun y => x + y) ∘ fun y => xs.sum + y) = fun y => (x :: xs).sum + y := by
      funext y
      simp [List.sum_cons, Nat.add_assoc]
    rw [hf]

theorem cumsum_replicate (q b : Nat) :
    cumsum (List.replicate q b) = (List.range q).map (fun i => (i + 1) * b) := by
  induction q with
  | zero => simp [cumsum]
  | succ q ih =>
    rw [List.replicate_succ', cumsum_append, ih, List.range_succ, List.map_append]
    simp [cumsum, List.sum_replicate, Nat.succ_mul, Nat.add_comm]

theorem consecPairs_cons_cons {α : Type} (a b : α) (rest : List α) :
    consecPairs (a :: b :: rest) = (a, b) :: consecPairs (b :: rest) := rfl

theorem consecPairs_map_range (m : Nat) (f : Nat → Nat) :
    consecPairs ((List.range (m + 1)).map f)
      = (List.range m).map (fun i => (f i, f (i + 1))) := by
  induction m generalizing f with
  | zero => rfl
  | succ m ih =>
    have hA : (List.range (m + 1 + 1)).map f
        = f 0 :: (List.range (m + 1)).map (fun i => f (i + 1)) := by
      rw [List.range_succ_eq_map (m + 1)]
      simp [List.map_map, Function.comp]
    have hB : (List.range (m + 1)).map (fun i => f (i + 1))
        = f 1 :: (List.range m).map (fun i => f (i + 1 + 1)) := by
      rw [List.range_succ_eq_map m]
      simp [List.map_map, Function.comp]
    rw [hA, hB, consecPairs_cons_cons, ← hB, ih (fun i => f (i + 1))]
    rw [List.range_succ_eq_map m]
    simp [List.map_map, Function.comp]

theorem ceilDiv_cases (n b : Nat) (hb : 0 < b) :
    (n + b - 1) / b = n / b + (if n % b = 0 then 0 else 1) := by
  have hk : b * (n / b) + n % b = n := Nat.div_add_mod n b
  have hlt : n % b < b := Nat.mod_lt _ hb
  by_cases hr : n % b = 0
  · simp only [if_pos hr, Nat.add_zero]
    have hmul : b * (n / b) = n := Nat.mul_div_cancel' (Nat.dvd_of_mod_eq_zero hr)
    have h1 : n + b - 1 = b * (n / b) + (b - 1) := by rw [hmul]; omega
    rw [h1, Nat.mul_add_div hb, Nat.div_eq_of_lt (by omega : b - 1 < b)]
    rfl
  · simp only [if_neg hr]
    have h1 : n + b - 1 = b * (n / b) + (n % b + b - 1) := by
      conv_lhs => rw [← hk]
      rw [Nat.add_assoc, Nat.add_sub_assoc (by omega : 1 ≤ n % b + b)]
    rw [h1, Nat.mul_add_div hb]
    congr 1
    exact Nat.div_eq_of_lt_le (by omega) (by omega)

theorem getStrides_closed (n b : Nat) (hb : 0 < b) :
    getStrides n b
      = (List.range ((n + b - 1) / b)).map (fun i => (i * b, min ((i + 1) * b) n)) := by
  have hk : n / b * b + n % b = n := by
    rw [Nat.mul_comm]
    exact Nat.div_add_mod n b
  have hlt : n % b < b := Nat.mod_lt _ hb
  have hqb : n / b * b ≤ n := by omega
  unfold getStrides
  by_cases hr : n % b = 0
  · simp only [if_pos hr]
    have hn : n / b * b = n := Nat.div_mul_cancel (Nat.dvd_of_mod_eq_zero hr)
    have hcs : cumsum (0 :: List.replicate (n / b) b)
        = (List.range (n / b + 1)).map (fun i => i * b) := by
      rw [show cumsum (0 :: List.replicate (n / b) b)
            = 0 :: (cumsum (List.replicate (n / b) b)).map (fun y => 0 + y) from rfl]
      rw [cumsum_replicate]
      rw [List.range_succ_eq_map (n / b)]
      simp [List.map_map, Function.comp]
    rw [hcs, zip_tail_eq_consecPairs, consecPairs_map_range]
    rw [ceilDiv_cases n b hb, if_pos hr, Nat.add_zero]
    apply List.map_congr_left
    intro i hi
    have hi2 : i < n / b := List.mem_range.mp hi
    have hle : (i + 1) * b ≤ n := by
      calc (i + 1) * b ≤ n / b * b := Nat.mul_le_mul_right _ (by omega)
      _ = n := hn
    simp [Nat.min_eq_left hle]
  · simp only [if_neg hr]
    have hraw : cumsum (0 :: (List.replicate (n / b) b ++ [n % b]))
        = 0 :: ((List.range (n / b)).map (fun i => (i + 1) * b) ++ [n / b * b + n % b]) := by
      rw [show cumsum (0 :: (List.replicate (n / b) b ++ [n % b]))
            = 0 :: (cumsum (List.replicate (n / b) b ++ [n % b])).map (fun y => 0 + y)
          from rfl]
      rw [cumsum_append, cumsum_replicate]
      rw [show cumsum [n % b] = [n % b] from rfl]
      simp [List.sum_replicate, Nat.mul_comm]
    have hmapf : (List.range (n / b + 1 + 1)).map (fun i => min (i * b) n)
        = 0 :: ((List.range (n / b)).map (fun i => (i + 1) * b) ++ [n / b * b + n % b]) := by
      rw [show List.range (n / b + 1 + 1) = List.range (n / b + 1) ++ [n / b + 1] from
            List.range_succ (n / b + 1),
          List.map_append, List.range_succ_eq_map (n / b)]
      simp only [List.map_cons, List.map_map, List.map_singleton]
      rw [List.cons_append]
      congr 1
      · simp
      congr 1
      · apply List.map_congr_left
        intro i hi
        have hi2 : i < n / b := List.mem_range.mp hi
        have hle : (i + 1) * b ≤ n := by
          calc (i + 1) * b ≤ n / b * b := Nat.mul_le_mul_right _ (by omega)
          _ ≤ n := hqb
        show min ((i + 1) * b) n = (i + 1) * b
        exact Nat.min_eq_left hle
      · have hlt2 : n ≤ (n / b + 1) * b := by
          have hx : (n / b + 1) * b = n / b * b + b := by ring
          omega
        have h5 : min ((n / b + 1) * b) n = n := Nat.min_eq_right hlt2
        simp only [List.map_nil, h5, hk]
    rw [hraw, ← hmapf, zip_tail_eq_consecPairs, consecPairs_map_range]
    rw [ceilDiv_cases n b hb, if_neg hr]
    apply List.map_congr_left
    intro i hi
    have hi2 : i < n / b + 1 := List.mem_range.mp hi
    have hle : i * b ≤ n := by
      calc i * b ≤ n / b * b := Nat.mul_le_mul_right _ (by omega)
      _ ≤ n := hqb
    simp [Nat.min_eq_left hle]

/-- Sums commute with dividing every element by a fixed rational. -/
theorem sum_map_div (l : List ℚ) (s : ℚ) :
    (l.map (fun x => x / s)).sum = l.sum / s := by
  induction l with
  | nil => simp
  | cons a tl ih =>
    simp only [List.map_cons, List.sum_cons, ih]
    rw [div_add_div_same]

/-- Claim C7: for a positive number `n` of strided frames and a batch size
`0 < b ≤ n`, the `CGDataBatch` windows are exactly the contiguous,
non-overlapping ranges `[i*b, min ((i+1)*b) n)` for `i < ceil(n / b)` —
each of size `b` except a final range of size `n mod b` when `b` does not
divide `n` — and the number of batches is `ceil(n / b)`. -/
theorem c7_batch_windows (coords forces : List Int) (w : Option (List ℚ))
    (b stride : Nat)
    (hn : 0 < (everyStride coords stride).length)
    (hb : 0 < b)
    (hbn : b ≤ (everyStride coords stride).length) :
    (initBatch coords forces w b stride).strides
      = (List.range (((everyStride coords stride).length + b - 1) / b)).map
          (fun i => (i * b, min ((i + 1) * b) (everyStride coords stride).length)) ∧
    (initBatch coords forces w b stride).n_elem
      = ((everyStride coords stride).length + b - 1) / b := by
  have h1 : (initBatch coords forces w b stride).strides
      = getStrides (everyStride coords stride).length b := by
    simp only [initBatch]
    rw [if_neg (by omega)]
  have h2 : (initBatch coords forces w b stride).n_elem
      = (getStrides (everyStride coords stride).length b).length := by
    simp only [initBatch]
    rw [if_neg (by omega)]
  rw [h1, h2, getStrides_closed _ _ hb]
  exact ⟨rfl, by simp⟩

/-- Claim C7, witness: 5 frames with batch size 2 yield the three windows
`[0,2)`, `[2,4)`, `[4,5)`. -/
theorem c7_witness :
    0 < (everyStride ([10, 11, 12, 13, 14] : List Int) 1).length ∧
    0 < 2 ∧
    2 ≤ (everyStride ([10, 11, 12, 13, 14] : List Int) 1).length ∧
    (initBatch [10, 11, 12, 13, 14] [20, 21, 22, 23, 24] none 2 1).strides
      = [(0, 2), (2, 4), (4, 5)] ∧
    (initBatch [10, 11, 12, 13, 14] [20, 21, 22, 23, 24] none 2 1).n_elem = 3 :=
  ⟨by decide, by decide, by decide,
   by
     have h := c7_batch_windows [10, 11, 12, 13, 14] [20, 21, 22, 23, 24] none 2 1
       (by decide) (by decide) (by decide)
     rw [h.1]
     decide,
   by
     have h := c7_batch_windows [10, 11, 12, 13, 14] [20, 21, 22, 23, 24] none 2 1
       (by decide) (by decide) (by decide)
     rw [h.2]
     decide⟩

/-- Claim C10 (amended): when the batch size exceeds the number of strided
frames and at least one frame remains, the effective batch size is capped
to the frame count and the batch list is the single window `[0, n)`
containing all retained frames. -/
theorem c10_capped_single_batch (coords forces : List Int) (w : Option (List ℚ))
    (b stride : Nat)
    (hn : 0 < (everyStride coords stride).length)
    (hb : (everyStride coords stride).length < b) :
    (initBatch coords forces w b stride).batch_size
      = (everyStride coords stride).length ∧
    (initBatch coords forces w b stride).strides
      = [(0, (everyStride coords stride).length)] ∧
    (initBatch coords forces w b stride).n_elem = 1 := by
  have hcap : (initBatch coords forces w b stride).batch_size
      = (everyStride coords stride).length := by
    simp only [initBatch]
    rw [if_pos (by omega)]
  have h1 : (initBatch coords forces w b stride).strides
      = getStrides (everyStride coords stride).length
          (everyStride coords stride).length := by
    simp only [initBatch]
    rw [if_pos (by omega)]
  have h2 : (initBatch coords forces w b stride).n_elem
      = (getStrides (everyStride coords stride).length
          (everyStride coords stride).length).length := by
    simp only [initBatch]
    rw [if_pos (by omega)]
  have hk : ((everyStride coords stride).length + (everyStride coords stride).length - 1)
      / (everyStride coords stride).length = 1 :=
    Nat.div_eq_of_lt_le (by omega) (by omega)
  refine ⟨hcap, ?_, ?_⟩
  · rw [h1, getStrides_closed _ _ hn, hk, show List.range 1 = [0] from rfl]
    simp
  · rw [h2, getStrides_closed _ _ hn, hk]
    simp

/-- Claim C10, counterexample: with zero frames and a larger batch size the
batch list is empty, not a single batch. -/
theorem c10_counterexample :
    (everyStride ([] : List Int) 1).length = 0 ∧
    (initBatch [] [] none 4 1).n_elem = 0 ∧
    (initBatch [] [] none 4 1).strides = [] := by
  decide

/-- Claim C10, witness: 3 frames with requested batch size 5 give one
batch `[0, 3)` covering all frames. -/
theorem c10_witness :
    0 < (everyStride ([10, 11, 12] : List Int) 1).length ∧
    (everyStride ([10, 11, 12] : List Int) 1).length < 5 ∧
    (initBatch [10, 11, 12] [20, 21, 22] none 5 1).batch_size = 3 ∧
    (initBatch [10, 11, 12] [20, 21, 22] none 5 1).strides = [(0, 3)] ∧
    (initBatch [10, 11, 12] [20, 21, 22] none 5 1).n_elem = 1 :=
  ⟨by decide, by decide,
   by
     have h := c10_capped_single_batch [10, 11, 12] [20, 21, 22] none 5 1
       (by decide) (by decide)
     rw [h.1]
     decide,
   by
     have h := c10_capped_single_batch [10, 11, 12] [20, 21, 22] none 5 1
       (by decide) (by decide)
     rw [h.2.1]
     decide,
   by
     have h := c10_capped_single_batch [10, 11, 12] [20, 21, 22] none 5 1
       (by decide) (by decide)
     rw [h.2.2]⟩

/-- Claim C6 (amended): for a stride greater than 1 and retained weights of
nonzero sum, the stored weights are the retained (every stride-th) weights
divided by their sum, and they sum to 1. -/
theorem c6_weight_renormalization (coords forces : List Int) (ws : List ℚ)
    (b stride : Nat)
    (hs : 1 < stride)
    (hsum : (everyStride ws stride).sum ≠ 0) :
    (initBatch coords forces (some ws) b stride).weights
      = some ((everyStride ws stride).map
          (fun x => x / (everyStride ws stride).sum)) ∧
    ((everyStride ws stride).map
        (fun x => x / (everyStride ws stride).sum)).sum = 1 := by
  constructor
  · simp only [initBatch]
    rw [if_pos (by omega)]
  · rw [sum_map_div]
    exact div_self hsum

/-- Claim C6, witness: weights `[1,1,1,1]` with stride 2 are stored as
`[1/2, 1/2]`, which sums to 1. -/
theorem c6_witness :
    (1 : Nat) < 2 ∧
    (everyStride [(1 : ℚ), 1, 1, 1] 2).sum ≠ 0 ∧
    (initBatch [10, 11, 12, 13] [20, 21, 22, 23] (some [1, 1, 1, 1]) 2 2).weights
      = some [(1 : ℚ)/2, 1/2] ∧
    ([(1 : ℚ)/2, 1/2]).sum = 1 := by
  have hE : everyStride [(1 : ℚ), 1, 1, 1] 2 = [1, 1] := rfl
  have hsum : (everyStride [(1 : ℚ), 1, 1, 1] 2).sum ≠ 0 := by
    rw [hE]
    norm_num
  refine ⟨by decide, hsum, ?_, by norm_num⟩
  have h := c6_weight_renormalization [10, 11, 12, 13] [20, 21, 22, 23]
    [1, 1, 1, 1] 2 2 (by decide) hsum
  rw [h.1, hE]
  norm_num

/-- Claim C6, counterexample: all-zero weights with stride 2 are stored as
`[0, 0]`, whose sum is not 1 (the division by the zero total does not
renormalize; in floating point it produces NaNs), refuting the claim for
arbitrary weight arrays. -/
theorem c6_counterexample :
    (initBatch [10, 11, 12, 13] [20, 21, 22, 23] (some [0, 0, 0, 0]) 2 2).weights
      = some [(0 : ℚ), 0] ∧
    ([(0 : ℚ), 0]).sum ≠ 1 := by
  have hE : everyStride [(0 : ℚ), 0, 0, 0] 2 = [0, 0] := rfl
  constructor
  · have hw : (initBatch [10, 11, 12, 13] [20, 21, 22, 23] (some [0, 0, 0, 0]) 2 2).weights
        = some ((everyStride [(0 : ℚ), 0, 0, 0] 2).map
            (fun x => x / (everyStride [(0 : ℚ), 0, 0, 0] 2).sum)) := by
      simp only [initBatch]
      rw [if_pos (by omega)]
    rw [hw, hE]
    norm_num
  · norm_num

/-! ### Claims C5, C8, C9, C4: projection errors, saving, staleness -/

/-- Claim C5: `process_coords_forces` warns and returns nothing on a shape
mismatch, leaving the collection unchanged (`cg_coords`, `cg_forces`,
`force_map` are not set); on matching shapes it stores and returns the
projected CG coordinates and forces. -/
theorem c5_process_coords_forces
    (sliceCF : NArray → NArray → Option NArray → NArray × NArray × NArray)
    (s : SCState) (coords forces : NArray) :
    (coords.shape ≠ forces.shape →
      processCoordsForces sliceCF s coords forces
        = (none, s,
           ["Cannot process coordinates and forces: mismatch between array shapes."])) ∧
    (coords.shape = forces.shape →
      processCoordsForces sliceCF s coords forces
        = (some ((sliceCF coords forces s.cg_map).1,
                 (sliceCF coords forces s.cg_map).2.1),
           { s with cg_coords := some (sliceCF coords forces s.cg_map).1,
                    cg_forces := some (sliceCF coords forces s.cg_map).2.1,
                    force_map := some (sliceCF coords forces s.cg_map).2.2 },
           [])) := by
  constructor
  · intro h
    unfold processCoordsForces
    rw [if_pos h]
  · intro h
    unfold processCoordsForces
    rw [if_neg (by simp [h])]

/-- Claim C5, witness: a concrete mismatched pair is rejected with the
state unchanged, and a matching pair is projected and stored. -/
theorem c5_witness :
    ((⟨[2, 3, 3], []⟩ : NArray).shape ≠ (⟨[1, 3, 3], []⟩ : NArray).shape) ∧
    processCoordsForces sliceDemo blankState ⟨[2, 3, 3], []⟩ ⟨[1, 3, 3], []⟩
      = (none, blankState,
         ["Cannot process coordinates and forces: mismatch between array shapes."]) ∧
    ((⟨[2, 3, 3], []⟩ : NArray).shape = (⟨[2, 3, 3], [7]⟩ : NArray).shape) ∧
    (processCoordsForces sliceDemo blankState ⟨[2, 3, 3], []⟩ ⟨[2, 3, 3], [7]⟩).2.1.cg_coords
      = some ⟨[2, 3, 3], []⟩ :=
  ⟨by decide,
   (c5_process_coords_forces sliceDemo blankState ⟨[2, 3, 3], []⟩ ⟨[1, 3, 3], []⟩).1
     (by decide),
   by decide,
   by
     have h := (c5_process_coords_forces sliceDemo blankState
       ⟨[2, 3, 3], []⟩ ⟨[2, 3, 3], [7]⟩).2 (by decide)
     rw [h]
     decide⟩

/-- Claim C8: calling `save_cg_output` before `apply_cg_mapping` reports
that the mapping must be applied first and writes no artifact. -/
theorem c8_save_requires_mapping (s : SCState)
    (h : s.cg_atom_indices = none) (save_coord_force save_cg_maps : Bool) :
    saveCgOutput s save_coord_force save_cg_maps
      = ([], ["CG mapping must be applied before outputs can be saved."]) := by
  unfold saveCgOutput
  rw [h]

/-- Claim C8, witness: the fresh collection refuses to save. -/
theorem c8_witness :
    blankState.cg_atom_indices = none ∧
    saveCgOutput blankState true true
      = ([], ["CG mapping must be applied before outputs can be saved."]) :=
  ⟨rfl, c8_save_requires_mapping blankState rfl true true⟩

/-- Claim C9: with the mapping applied and `save_coord_force` true,
`save_cg_output` always persists the CG structure and embeddings, persists
each projected artifact that exists, and skips each missing artifact with a
message naming it; with `save_cg_maps` true the coordinate and force maps
receive the same treatment. -/
theorem c9_save_partial (s : SCState) (idxs : List Nat) (mapsFlag : Bool)
    (hidx : s.cg_atom_indices = some idxs) :
    (SavedArtifact.structureFile s.cg_dataframe idxs
        ∈ (saveCgOutput s true mapsFlag).1) ∧
    (SavedArtifact.embeds (s.cg_dataframe.map (fun r => r.type))
        ∈ (saveCgOutput s true mapsFlag).1) ∧
    (∀ c, s.cg_coords = some c →
        SavedArtifact.coords c ∈ (saveCgOutput s true mapsFlag).1) ∧
    (s.cg_coords = none →
        (∀ a, SavedArtifact.coords a ∉ (saveCgOutput s true mapsFlag).1) ∧
        "No coordinates found; only CG structure, embeddings and loaded forces will be saved."
          ∈ (saveCgOutput s true mapsFlag).2) ∧
    (∀ f, s.cg_forces = some f →
        SavedArtifact.forces f ∈ (saveCgOutput s true mapsFlag).1) ∧
    (s.cg_forces = none →
        (∀ a, SavedArtifact.forces a ∉ (saveCgOutput s true mapsFlag).1) ∧
        "No forces found;  only CG structure, embeddings, and loaded coordinates will be saved."
          ∈ (saveCgOutput s true mapsFlag).2) ∧
    (mapsFlag = true → ∀ m, s.cg_map = some m →
        SavedArtifact.coordMap m ∈ (saveCgOutput s true mapsFlag).1) ∧
    (mapsFlag = true → s.cg_map = none →
        (∀ a, SavedArtifact.coordMap a ∉ (saveCgOutput s true mapsFlag).1) ∧
        "No cg coordinate map found. Skipping save." ∈ (saveCgOutput s true mapsFlag).2) ∧
    (mapsFlag = true → ∀ m, s.force_map = some m →
        SavedArtifact.forceMapFile m ∈ (saveCgOutput s true mapsFlag).1) ∧
    (mapsFlag = true → s.force_map = none →
        (∀ a, SavedArtifact.forceMapFile a ∉ (saveCgOutput s true mapsFlag).1) ∧
        "No cg force map found. Skipping save." ∈ (saveCgOutput s true mapsFlag).2) := by
  cases hc : s.cg_coords <;> cases hf : s.cg_forces <;> cases hm : s.cg_map <;>
    cases hfm : s.force_map <;> cases mapsFlag <;>
      simp [saveCgOutput, hidx, hc, hf, hm, hfm]

/-- Claim C9, witness: a collection with coordinates and a coordinate map
but no forces and no force map persists the structure, embeddings,
coordinates and coordinate map, and reports the missing forces and force
map. -/
theorem c9_witness :
    c9state.cg_atom_indices = some [0, 1] ∧
    SavedArtifact.coords ⟨[1, 1, 3], [5, 6, 7]⟩ ∈ (saveCgOutput c9state true true).1 ∧
    (∀ a, SavedArtifact.forces a ∉ (saveCgOutput c9state true true).1) ∧
    ("No forces found;  only CG structure, embeddings, and loaded coordinates will be saved."
      ∈ (saveCgOutput c9state true true).2) ∧
    SavedArtifact.coordMap ⟨[1, 2], [1, 0]⟩ ∈ (saveCgOutput c9state true true).1 ∧
    ("No cg force map found. Skipping save." ∈ (saveCgOutput c9state true true).2) := by
  have h := c9_save_partial c9state [0, 1] true rfl
  refine ⟨rfl, h.2.2.1 _ rfl, (h.2.2.2.2.2.1 rfl).1, (h.2.2.2.2.2.1 rfl).2,
    h.2.2.2.2.2.2.1 rfl _ rfl, (h.2.2.2.2.2.2.2.2.2 rfl rfl).2⟩

/-- Claim C4 (code-bug demonstration): re-running `apply_cg_mapping` does
not invalidate previously projected data — after projecting under the
first mapping `c4mapA` and re-mapping with a different mapping `c4mapB`,
the collection still holds CG coordinates produced under `c4mapA`, and
`save_cg_output` saves them alongside the topology of the newer mapping,
which the specification forbids. -/
theorem c4_stale_projection_saved :
    c4s3.cg_map = some c4mapB ∧
    c4mapA ≠ c4mapB ∧
    c4s3.cg_coords = some c4mapA ∧
    SavedArtifact.coords c4mapA ∈ (saveCgOutput c4s3 true true).1 ∧
    SavedArtifact.structureFile (renumberResSeq c4dfB) [1, 7]
      ∈ (saveCgOutput c4s3 true true).1 := by
  decide

/-! ### Claim C2: degenerate single-bead bond repair -/

/-- Endpoints of a consecutive bond of `ch` are atoms of `ch`. -/
theorem mem_consecBonds {ch : List CGAtom} {p : Nat × Nat} (hp : p ∈ consecBonds ch) :
    ∃ a ∈ ch, ∃ b ∈ ch, p = (a.idx, b.idx) := by
  rcases List.mem_map.mp hp with ⟨q, hq, hqe⟩
  have h := List.of_mem_zip hq
  exact ⟨q.1, h.1, q.2, (List.tail_sublist ch).subset h.2, hqe.symm⟩

theorem bondsWithin_append (ch : List CGAtom) (l1 l2 : List (Nat × Nat)) :
    bondsWithin ch (l1 ++ l2) = bondsWithin ch l1 ++ bondsWithin ch l2 :=
  List.filter_append _ _

theorem bondsWithin_consecBonds_self (ch : List CGAtom) :
    bondsWithin ch (consecBonds ch) = consecBonds ch := by
  apply List.filter_eq_self.mpr
  intro p hp
  rcases mem_consecBonds hp with ⟨a, ha, b, hb, hpe⟩
  subst hpe
  have h1 : a.idx ∈ chainIdxs ch := List.mem_map.mpr ⟨a, ha, rfl⟩
  have h2 : b.idx ∈ chainIdxs ch := List.mem_map.mpr ⟨b, hb, rfl⟩
  simp only [Bool.and_eq_true]
  exact ⟨List.elem_eq_true_of_mem h1, List.elem_eq_true_of_mem h2⟩

theorem bondsWithin_consecBonds_disj (ch c2 : List CGAtom) (hd : chainDisj ch c2) :
    bondsWithin ch (consecBonds c2) = [] := by
  apply List.filter_eq_nil_iff.mpr
  intro p hp
  rcases mem_consecBonds hp with ⟨a, ha, b, hb, hpe⟩
  subst hpe
  simp only [Bool.and_eq_true, not_and]
  intro hcon _
  have hmem : a.idx ∈ chainIdxs ch := List.mem_of_elem_eq_true hcon
  rcases List.mem_map.mp hmem with ⟨x, hx, hxe⟩
  exact absurd hxe (hd x hx a ha)

theorem bondsWithin_flatMap (chains : List (List CGAtom)) (ch : List CGAtom)
    (hch : ch ∈ chains) (hdisj : chains.Pairwise chainDisj) :
    bondsWithin ch (chains.flatMap consecBonds) = consecBonds ch := by
  induction chains with
  | nil => cases hch
  | cons c cs ih =>
    rw [List.pairwise_cons] at hdisj
    rw [List.flatMap_cons, bondsWithin_append]
    rcases List.mem_cons.mp hch with rfl | hch2
    · have h2 : bondsWithin ch (cs.flatMap consecBonds) = [] := by
        apply List.filter_eq_nil_iff.mpr
        intro p hp
        rcases List.mem_flatMap.mp hp with ⟨c2, hc2, hpc2⟩
        rcases mem_consecBonds hpc2 with ⟨a, ha, b, hb, hpe⟩
        subst hpe
        simp only [Bool.and_eq_true, not_and]
        intro hcon _
        have hmem : a.idx ∈ chainIdxs ch := List.mem_of_elem_eq_true hcon
        rcases List.mem_map.mp hmem with ⟨x, hx, hxe⟩
        exact absurd hxe (hdisj.1 c2 hc2 x hx a ha)
      rw [bondsWithin_consecBonds_self, h2, List.append_nil]
    · have hd : chainDisj ch c := by
        intro a ha b hb
        exact (hdisj.1 ch hch2 b hb a ha).symm
      rw [bondsWithin_consecBonds_disj ch c hd, List.nil_append]
      exact ih hch2 hdisj.2

/-- Claim C2 (amended): for a CG topology in which every retained particle
is named `CA` and no native bonds exist, `get_prior_nls` synthesizes
sequential bonds between consecutive particles within each chain
independently, so a chain of `n` single-bead residues ends up with exactly
`n - 1` bonds, each connecting consecutive particles of that chain. -/
theorem c2_sequential_bond_repair (t : CGTop) (ch : List CGAtom)
    (hch : ch ∈ t.chains)
    (hCA : allCA t = true)
    (hnb : t.bonds = [])
    (hdisj : t.chains.Pairwise chainDisj) :
    (bondsWithin ch (repairBonds t)).length = ch.length - 1 := by
  unfold repairBonds
  rw [if_pos hCA, hnb, List.nil_append,
    bondsWithin_flatMap t.chains ch hch hdisj]
  unfold consecBonds
  rw [List.length_map, List.length_zip, List.length_tail]
  omega

/-- Claim C2, counterexample: a chain of five single-bead residues that all
share the single atom name `CB` (not `CA`) receives no synthesized bonds at
all — the repair is keyed to the literal name set `{"CA"}` — refuting the
claim for an arbitrary shared atom name. -/
theorem c2_counterexample :
    ((topAtoms c2topCB).all (fun a => a.name == "CB") = true) ∧
    (topAtoms c2topCB).length = 5 ∧
    c2topCB.bonds = [] ∧
    c2topCB.chains.map (fun ch => (bondsWithin ch (repairBonds c2topCB)).length) = [0] := by
  decide

/-- Claim C2, witness: two CA chains of five single-bead residues with no
native bonds; the first chain receives exactly 4 sequential bonds. -/
theorem c2_witness :
    ([⟨0, "CA"⟩, ⟨1, "CA"⟩, ⟨2, "CA"⟩, ⟨3, "CA"⟩, ⟨4, "CA"⟩] ∈ c2topCA.chains) ∧
    allCA c2topCA = true ∧
    c2topCA.bonds = [] ∧
    c2topCA.chains.Pairwise chainDisj ∧
    (bondsWithin [⟨0, "CA"⟩, ⟨1, "CA"⟩, ⟨2, "CA"⟩, ⟨3, "CA"⟩, ⟨4, "CA"⟩]
      (repairBonds c2topCA)).length = 5 - 1 :=
  ⟨by decide, by decide, by decide, by decide,
   c2_sequential_bond_repair c2topCA _ (by decide) (by decide) rfl (by decide)⟩

/-! ### Claim C3: terminal embedding assignment -/

theorem setType_getElem? (df : List DFRow) (i c j : Nat) :
    (setType df i c)[j]?
      = df[j]?.map (fun r => if j = i then { r with type := c } else r) := by
  induction df generalizing i j with
  | nil => simp [setType]
  | cons r rs ih =>
    cases i with
    | zero =>
      cases j with
      | zero => simp [setType]
      | succ j =>
        simp only [setType, List.getElem?_cons_succ]
        cases rs[j]? <;> simp
    | succ i =>
      cases j with
      | zero => simp [setType]
      | succ j =>
        simp only [setType, List.getElem?_cons_succ, ih]
        cases rs[j]? <;> simp [Nat.succ_inj]

theorem applyType_getElem? (idxs : List Nat) (df : List DFRow) (c : Nat) (j : Nat) :
    (applyType df idxs c)[j]?
      = df[j]?.map (fun r => if j ∈ idxs then { r with type := c } else r) := by
  induction idxs generalizing df with
  | nil =>
    show df[j]? = _
    cases df[j]? <;> simp
  | cons i is ih =>
    show (applyType (setType df i c) is c)[j]? = _
    rw [ih, setType_getElem?]
    cases df[j]? with
    | none => rfl
    | some r =>
      by_cases h1 : j ∈ is <;> by_cases h2 : j = i <;>
        simp [h1, h2, List.mem_cons]

theorem setType_stripType (df : List DFRow) (i c : Nat) :
    (setType df i c).map stripType = df.map stripType := by
  induction df generalizing i with
  | nil => simp [setType]
  | cons r rs ih =>
    cases i with
    | zero => simp [setType, stripType]
    | succ i => simp [setType, ih]

theorem applyType_stripType (idxs : List Nat) (df : List DFRow) (c : Nat) :
    (applyType df idxs c).map stripType = df.map stripType := by
  induction idxs generalizing df with
  | nil => rfl
  | cons i is ih =>
    show (applyType (setType df i c) is c).map stripType = _
    rw [ih, setType_stripType]

theorem enumFrom_filter_map (pred : DFRow → Bool) (f : DFRow → Nat) :
    ∀ (df : List DFRow) (k : Nat),
      ((List.enumFrom k df).filter (fun p => pred p.2)).map (fun p => f p.2)
        = (df.filter pred).map f := by
  intro df
  induction df with
  | nil => intro k; rfl
  | cons r rs ih =>
    intro k
    rw [show List.enumFrom k (r :: rs) = (k, r) :: List.enumFrom (k + 1) rs from rfl]
    rw [List.filter_cons, List.filter_cons]
    by_cases hp : pred r
    · rw [if_pos (by exact hp), if_pos hp]
      simp only [List.map_cons]
      rw [ih]
    · rw [if_neg (by exact hp), if_neg hp]
      exact ih (k + 1)

theorem chainSel_resSeqs (df : List DFRow) (c : Nat) :
    (chainSel df c).map (fun q => q.2.resSeq) = chainResSeqs df c := by
  unfold chainSel chainResSeqs List.enum
  exact enumFrom_filter_map (fun r => r.chainID == c) (fun r => r.resSeq) df 0

theorem chainResSeqs_congr (df1 df : List DFRow)
    (h : df1.map stripType = df.map stripType) (c : Nat) :
    chainResSeqs df1 c = chainResSeqs df c := by
  induction df1 generalizing df with
  | nil =>
    cases df with
    | nil => rfl
    | cons r rs => simp at h
  | cons r1 rs1 ih =>
    cases df with
    | nil => simp at h
    | cons r rs =>
      simp only [List.map_cons, List.cons.injEq] at h
      have hc : r1.chainID = r.chainID := congrArg (fun t => t.1) h.1
      have hr : r1.resSeq = r.resSeq := congrArg (fun t => t.2.1) h.1
      unfold chainResSeqs
      rw [List.filter_cons, List.filter_cons]
      have hcond : (r1.chainID == c) = (r.chainID == c) := by rw [hc]
      rw [hcond]
      by_cases hb : (r.chainID == c) = true
      · rw [if_pos hb, if_pos hb]
        simp only [List.map_cons]
        rw [hr]
        have htail : chainResSeqs rs1 c = chainResSeqs rs c := ih rs h.2
        rw [show ((rs1.filter (fun x => x.chainID == c)).map (fun x => x.resSeq))
              = chainResSeqs rs1 c from rfl, htail]
        rfl
      · rw [if_neg hb, if_neg hb]
        exact ih rs h.2

theorem chainIDList_congr (df1 df : List DFRow)
    (h : df1.map stripType = df.map stripType) :
    chainIDList df1 = chainIDList df := by
  unfold chainIDList
  have h2 : df1.map (fun r => r.chainID) = df.map (fun r => r.chainID) := by
    have h3 := congrArg (List.map (fun t : Nat × Nat × String => t.1)) h
    simpa [List.map_map, Function.comp, stripType] using h3
  rw [h2]

theorem mem_termAtomIdxs_min (df : List DFRow) (nm : String) (j : Nat) :
    j ∈ termAtomIdxs df nm true ↔ ∃ r, df[j]? = some r ∧ isNTermAtom df nm r := by
  unfold termAtomIdxs
  rw [List.mem_flatMap]
  constructor
  · rintro ⟨c, hc, hj⟩
    rcases List.mem_map.mp hj with ⟨p, hpf, hpj⟩
    rcases List.mem_filter.mp hpf with ⟨hpsel, hpcond⟩
    rcases List.mem_filter.mp hpsel with ⟨hpenum, hpchain⟩
    obtain ⟨i, r⟩ := p
    have hij : i = j := hpj
    subst hij
    have hget : df[i]? = some r := List.mem_enum_iff_getElem?.mp hpenum
    have hchain : r.chainID = c := by simpa using hpchain
    simp only [Bool.and_eq_true, beq_iff_eq] at hpcond
    refine ⟨r, hget, hpcond.2, ?_⟩
    rw [hpcond.1,
      show chainExt df c true
        = listMinD ((chainSel df c).map (fun q => q.2.resSeq)) from rfl,
      chainSel_resSeqs, hchain]
  · rintro ⟨r, hget, hname, hres⟩
    have hmem : r ∈ df := by
      have h1 := List.getElem?_eq_some.mp hget
      rcases h1 with ⟨hlt, hEq⟩
      exact hEq ▸ List.getElem_mem hlt
    refine ⟨r.chainID, List.mem_dedup.mpr (List.mem_map.mpr ⟨r, hmem, rfl⟩), ?_⟩
    apply List.mem_map.mpr
    refine ⟨(j, r), ?_, rfl⟩
    apply List.mem_filter.mpr
    refine ⟨List.mem_filter.mpr ⟨List.mem_enum_iff_getElem?.mpr hget, by simp⟩, ?_⟩
    have hE : chainExt df r.chainID true = listMinD (chainResSeqs df r.chainID) := by
      rw [show chainExt df r.chainID true
            = listMinD ((chainSel df r.chainID).map (fun q => q.2.resSeq)) from rfl,
        chainSel_resSeqs]
    simp [hE, hres, hname]

theorem mem_termAtomIdxs_max (df : List DFRow) (nm : String) (j : Nat) :
    j ∈ termAtomIdxs df nm false ↔ ∃ r, df[j]? = some r ∧ isCTermAtom df nm r := by
  unfold termAtomIdxs
  rw [List.mem_flatMap]
  constructor
  · rintro ⟨c, hc, hj⟩
    rcases List.mem_map.mp hj with ⟨p, hpf, hpj⟩
    rcases List.mem_filter.mp hpf with ⟨hpsel, hpcond⟩
    rcases List.mem_filter.mp hpsel with ⟨hpenum, hpchain⟩
    obtain ⟨i, r⟩ := p
    have hij : i = j := hpj
    subst hij
    have hget : df[i]? = some r := List.mem_enum_iff_getElem?.mp hpenum
    have hchain : r.chainID = c := by simpa using hpchain
    simp only [Bool.and_eq_true, beq_iff_eq] at hpcond
    refine ⟨r, hget, hpcond.2, ?_⟩
    rw [hpcond.1,
      show chainExt df c false
        = listMaxD ((chainSel df c).map (fun q => q.2.resSeq)) from rfl,
      chainSel_resSeqs, hchain]
  · rintro ⟨r, hget, hname, hres⟩
    have hmem : r ∈ df := by
      have h1 := List.getElem?_eq_some.mp hget
      rcases h1 with ⟨hlt, hEq⟩
      exact hEq ▸ List.getElem_mem hlt
    refine ⟨r.chainID, List.mem_dedup.mpr (List.mem_map.mpr ⟨r, hmem, rfl⟩), ?_⟩
    apply List.mem_map.mpr
    refine ⟨(j, r), ?_, rfl⟩
    apply List.mem_filter.mpr
    refine ⟨List.mem_filter.mpr ⟨List.mem_enum_iff_getElem?.mpr hget, by simp⟩, ?_⟩
    have hE : chainExt df r.chainID false = listMaxD (chainResSeqs df r.chainID) := by
      rw [show chainExt df r.chainID false
            = listMaxD ((chainSel df r.chainID).map (fun q => q.2.resSeq)) from rfl,
        chainSel_resSeqs]
    simp [hE, hres, hname]






theorem foldl_max_bounds (l : List Nat) (a : Nat) :
    a ≤ l.foldl Nat.max a ∧ ∀ x ∈ l, x ≤ l.foldl Nat.max a := by
  induction l generalizing a with
  | nil => exact ⟨Nat.le_refl a, by simp⟩
  | cons x xs ih =>
    constructor
    · calc a ≤ Nat.max a x := Nat.le_max_left a x
      _ ≤ (x :: xs).foldl Nat.max a := (ih (Nat.max a x)).1
    · intro y hy
      rcases List.mem_cons.mp hy with rfl | hy2
      · calc y ≤ Nat.max a y := Nat.le_max_right a y
        _ ≤ _ := (ih (Nat.max a y)).1
      · exact (ih (Nat.max a x)).2 y hy2

theorem le_dictMax (d : List (String × Nat)) (v : Nat) (hv : v ∈ dictValues d) :
    v ≤ dictMax d :=
  (foldl_max_bounds (dictValues d) 0).2 v hv

theorem dictGet_append_new (d : List (String × Nat)) (k : String) (v : Nat)
    (h : dictContains d k = false) :
    dictGet (d ++ [(k, v)]) k = v := by
  unfold dictGet
  rw [List.find?_append]
  have hnone : d.find? (fun p => p.1 == k) = none := by
    apply List.find?_eq_none.mpr
    intro p hp
    have hall := List.any_eq_false.mp h
    exact hall p hp
  rw [hnone]
  simp

theorem termCode_fresh (d : List (String × Nat))
    (h : dictContains d "N_term" = false) :
    nTermCodeD d = dictMax d + 1 ∧ nTermCodeD d ∉ dictValues d := by
  have heq : nTermCodeD d = dictMax d + 1 := by
    unfold nTermCodeD ensureTermKey
    rw [if_neg (by simp [h])]
    exact dictGet_append_new d "N_term" _ h
  refine ⟨heq, ?_⟩
  rw [heq]
  intro hmem
  have := le_dictMax d _ hmem
  omega

theorem termCode_fresh_C (d : List (String × Nat)) (nOpt : Option String)
    (h : dictContains (dictAfterN d nOpt) "C_term" = false) :
    cTermCodeD d nOpt = dictMax (dictAfterN d nOpt) + 1 ∧
    cTermCodeD d nOpt ∉ dictValues (dictAfterN d nOpt) := by
  have heq : cTermCodeD d nOpt = dictMax (dictAfterN d nOpt) + 1 := by
    unfold cTermCodeD ensureTermKey
    rw [if_neg (by simp [h])]
    exact dictGet_append_new _ "C_term" _ h
  refine ⟨heq, ?_⟩
  rw [heq]
  intro hmem
  have := le_dictMax _ _ hmem
  omega

theorem mem_iff_of_getElem_min (df : List DFRow) (nm : String) (j : Nat) (r : DFRow)
    (hj : df[j]? = some r) :
    j ∈ termAtomIdxs df nm true ↔ isNTermAtom df nm r := by
  rw [mem_termAtomIdxs_min]
  constructor
  · rintro ⟨r', hr', hN⟩
    rw [hj] at hr'
    rw [Option.some.inj hr']
    exact hN
  · intro h
    exact ⟨r, hj, h⟩

theorem mem_iff_of_getElem_max (df : List DFRow) (nm : String) (j : Nat) (r : DFRow)
    (hj : df[j]? = some r) :
    j ∈ termAtomIdxs df nm false ↔ isCTermAtom df nm r := by
  rw [mem_termAtomIdxs_max]
  constructor
  · rintro ⟨r', hr', hC⟩
    rw [hj] at hr'
    rw [Option.some.inj hr']
    exact hC
  · intro h
    exact ⟨r, hj, h⟩

theorem addTerm_pointwise (df : List DFRow) (d : List (String × Nat))
    (nOpt cOpt : Option String) (j : Nat) :
    ((addTerminalEmbeddings df d nOpt cOpt).1)[j]?
      = df[j]?.map (termUpdatedRow df d nOpt cOpt) := by
  cases nOpt with
  | none =>
    cases cOpt with
    | none =>
      show df[j]? = _
      cases hj : df[j]? with
      | none => rfl
      | some r => simp [termUpdatedRow]
    | some nmC =>
      show (applyType df (termAtomIdxs df nmC false)
        (dictGet (ensureTermKey d "C_term") "C_term"))[j]? = _
      rw [applyType_getElem?]
      cases hj : df[j]? with
      | none => rfl
      | some r =>
        simp only [Option.map_some']
        by_cases hC : isCTermAtom df nmC r
        · rw [if_pos ((mem_iff_of_getElem_max df nmC j r hj).mpr hC)]
          simp [termUpdatedRow, hC, cTermCodeD, dictAfterN]
        · rw [if_neg (fun hmem => hC ((mem_iff_of_getElem_max df nmC j r hj).mp hmem))]
          simp [termUpdatedRow, hC]
  | some nmN =>
    cases cOpt with
    | none =>
      show (applyType df (termAtomIdxs df nmN true)
        (dictGet (ensureTermKey d "N_term") "N_term"))[j]? = _
      rw [applyType_getElem?]
      cases hj : df[j]? with
      | none => rfl
      | some r =>
        simp only [Option.map_some']
        by_cases hN : isNTermAtom df nmN r
        · rw [if_pos ((mem_iff_of_getElem_min df nmN j r hj).mpr hN)]
          simp [termUpdatedRow, hN, nTermCodeD]
        · rw [if_neg (fun hmem => hN ((mem_iff_of_getElem_min df nmN j r hj).mp hmem))]
          simp [termUpdatedRow, hN]
    | some nmC =>
      show (applyType
        (applyType df (termAtomIdxs df nmN true)
          (dictGet (ensureTermKey d "N_term") "N_term"))
        (termAtomIdxs
          (applyType df (termAtomIdxs df nmN true)
            (dictGet (ensureTermKey d "N_term") "N_term")) nmC false)
        (dictGet (ensureTermKey (ensureTermKey d "N_term") "C_term") "C_term"))[j]? = _
      rw [applyType_getElem?, applyType_getElem?, Option.map_map]
      cases hj : df[j]? with
      | none => rfl
      | some r =>
        have hstrip : (applyType df (termAtomIdxs df nmN true)
              (dictGet (ensureTermKey d "N_term") "N_term")).map stripType
            = df.map stripType := applyType_stripType _ _ _
        have hdf1j : (applyType df (termAtomIdxs df nmN true)
              (dictGet (ensureTermKey d "N_term") "N_term"))[j]?
            = some (if j ∈ termAtomIdxs df nmN true
                then { r with type := dictGet (ensureTermKey d "N_term") "N_term" }
                else r) := by
          rw [applyType_getElem?, hj]
          rfl
        have hfields :
            (if j ∈ termAtomIdxs df nmN true
                then { r with type := dictGet (ensureTermKey d "N_term") "N_term" }
                else r).chainID = r.chainID ∧
            (if j ∈ termAtomIdxs df nmN true
                then { r with type := dictGet (ensureTermKey d "N_term") "N_term" }
                else r).resSeq = r.resSeq ∧
            (if j ∈ termAtomIdxs df nmN true
                then { r with type := dictGet (ensureTermKey d "N_term") "N_term" }
                else r).name = r.name := by
          by_cases h : j ∈ termAtomIdxs df nmN true <;> simp [h]
        have hCiff : isCTermAtom (applyType df (termAtomIdxs df nmN true)
              (dictGet (ensureTermKey d "N_term") "N_term")) nmC
              (if j ∈ termAtomIdxs df nmN true
                then { r with type := dictGet (ensureTermKey d "N_term") "N_term" }
                else r)
            ↔ isCTermAtom df nmC r := by
          unfold isCTermAtom
          rw [hfields.1, hfields.2.1, hfields.2.2,
            chainResSeqs_congr _ df hstrip]
        have hmemC : j ∈ termAtomIdxs (applyType df (termAtomIdxs df nmN true)
              (dictGet (ensureTermKey d "N_term") "N_term")) nmC false
            ↔ isCTermAtom df nmC r := by
          rw [mem_iff_of_getElem_max _ nmC j _ hdf1j, hCiff]
        by_cases hN : isNTermAtom df nmN r <;> by_cases hC : isCTermAtom df nmC r
        · have hmN : j ∈ termAtomIdxs df nmN true :=
            (mem_iff_of_getElem_min df nmN j r hj).mpr hN
          simp only [Option.map_some', Function.comp]
          rw [if_pos (hmemC.mpr hC), if_pos hmN]
          simp [termUpdatedRow, hN, hC, nTermCodeD, cTermCodeD, dictAfterN]
        · have hmN : j ∈ termAtomIdxs df nmN true :=
            (mem_iff_of_getElem_min df nmN j r hj).mpr hN
          simp only [Option.map_some', Function.comp]
          rw [if_neg (fun hmem => hC (hmemC.mp hmem)), if_pos hmN]
          simp [termUpdatedRow, hN, hC, nTermCodeD]
        · have hmN : j ∉ termAtomIdxs df nmN true :=
            fun hmem => hN ((mem_iff_of_getElem_min df nmN j r hj).mp hmem)
          simp only [Option.map_some', Function.comp]
          rw [if_pos (hmemC.mpr hC), if_neg hmN]
          simp [termUpdatedRow, hN, hC, cTermCodeD, dictAfterN, nTermCodeD]
        · have hmN : j ∉ termAtomIdxs df nmN true :=
            fun hmem => hN ((mem_iff_of_getElem_min df nmN j r hj).mp hmem)
          simp only [Option.map_some', Function.comp]
          rw [if_neg (fun hmem => hC (hmemC.mp hmem)), if_neg hmN]
          simp [termUpdatedRow, hN, hC]



/-- Claim C3: `add_terminal_embeddings` overwrites the embedding code of
exactly the rows matching the configured N-terminal (resp. C-terminal)
atom name at each chain's minimum (resp. maximum) residue-sequence number
(pointwise characterization through `termUpdatedRow`); each terminal code
is taken from the dictionary, lazily allocated as `max(values) + 1` when
absent — in which case it is distinct from all existing codes (for the
C-terminus, also from a freshly allocated N-terminal code) — and passing
`none` for a terminus leaves the codes for that terminus unchanged (with
both termini `none`, the dataframe is returned unchanged). -/
theorem c3_add_terminal_embeddings (df : List DFRow) (d : List (String × Nat))
    (nOpt cOpt : Option String) (hd : d ≠ []) :
    (∀ j : Nat, ((addTerminalEmbeddings df d nOpt cOpt).1)[j]?
        = df[j]?.map (termUpdatedRow df d nOpt cOpt)) ∧
    (addTerminalEmbeddings df d nOpt cOpt).2 = dictAfterC d nOpt cOpt ∧
    (nOpt ≠ none → dictContains d "N_term" = false →
      nTermCodeD d = dictMax d + 1 ∧ nTermCodeD d ∉ dictValues d) ∧
    (cOpt ≠ none → dictContains (dictAfterN d nOpt) "C_term" = false →
      cTermCodeD d nOpt = dictMax (dictAfterN d nOpt) + 1 ∧
      cTermCodeD d nOpt ∉ dictValues (dictAfterN d nOpt)) ∧
    (nOpt = none → cOpt = none → (addTerminalEmbeddings df d nOpt cOpt).1 = df) := by
  refine ⟨addTerm_pointwise df d nOpt cOpt, ?_, ?_, ?_, ?_⟩
  · cases nOpt <;> cases cOpt <;> rfl
  · intro _ h
    exact termCode_fresh d h
  · intro _ h
    exact termCode_fresh_C d nOpt h
  · intro hn hc
    subst hn
    subst hc
    rfl

/-- Claim C3, witness: a two-chain homodimer with residues 1..10 and
11..20 and no terminal codes in the dictionary; requesting N-terminus `N`
allocates the fresh code 4 = max+1 and assigns it to exactly 2 particles,
one at each chain's minimum residue. -/
theorem c3_witness :
    c3dict ≠ [] ∧
    dictContains c3dict "N_term" = false ∧
    (addTerminalEmbeddings c3homodimer c3dict (some "N") none).1
      = [⟨0, 1, "N", 4⟩, ⟨0, 1, "CA", 1⟩, ⟨0, 2, "CA", 1⟩, ⟨0, 10, "C", 3⟩,
         ⟨1, 11, "N", 4⟩, ⟨1, 11, "CA", 1⟩, ⟨1, 12, "CA", 1⟩, ⟨1, 20, "C", 3⟩] ∧
    nTermCodeD c3dict = dictMax c3dict + 1 ∧
    nTermCodeD c3dict ∉ dictValues c3dict ∧
    ((addTerminalEmbeddings c3homodimer c3dict (some "N") none).1.filter
        (fun r => r.type == nTermCodeD c3dict)).length = 2 :=
  ⟨by decide, by decide, by decide,
   ((c3_add_terminal_embeddings c3homodimer c3dict (some "N") none (by decide)).2.2.1
      (by decide) (by decide)).1,
   ((c3_add_terminal_embeddings c3homodimer c3dict (some "N") none (by decide)).2.2.1
      (by decide) (by decide)).2,
   by decide⟩
